import Mathlib

set_option autoImplicit false

/-!
Shallow embedding of the `cisco.nd` collection core: the NDI query/normalize
helpers (`plugins/module_utils/ndi.py`) and the reconciler module
`plugins/modules/nd_compliance_requirement_config_template.py`.

Parsed JSON/Python values are modelled by `JVal`; Python dicts are modelled as
insertion-ordered association lists with unique keys (`dinsert` reproduces
Python dict assignment: replace in place, else append). Python exceptions on
the read path (AttributeError / KeyError / TypeError / IndexError) are
modelled with `Except String`; `fail_json` and the unhandled-exception outcome
of the module are separate `Outcome` constructors, since `fail_json` halts the
invocation immediately.
-/

namespace AnsibleND

/-- A parsed JSON / plain Python value. -/
inductive JVal where
  | str (s : String)
  | boolean (b : Bool)
  | num (n : Int)
  | nul
  | arr (elems : List JVal)
  | obj (fields : List (String × JVal))
  deriving Repr

mutual
/-- Structural boolean equality on values. -/
def beqJVal : JVal → JVal → Bool
  | .str a, .str b => a == b
  | .boolean a, .boolean b => a == b
  | .num a, .num b => a == b
  | .nul, .nul => true
  | .arr a, .arr b => beqJList a b
  | .obj a, .obj b => beqJFields a b
  | _, _ => false

def beqJList : List JVal → List JVal → Bool
  | [], [] => true
  | x :: xs, y :: ys => beqJVal x y && beqJList xs ys
  | _, _ => false

def beqJFields : List (String × JVal) → List (String × JVal) → Bool
  | [], [] => true
  | f :: fs, g :: gs => (f.1 == g.1) && beqJVal f.2 g.2 && beqJFields fs gs
  | _, _ => false
end

instance : BEq JVal := ⟨beqJVal⟩

/-- Lookup in an insertion-ordered dict (first matching key). -/
def dget {β : Type} (d : List (String × β)) (k : String) : Option β :=
  match d with
  | [] => none
  | (k', v) :: rest => if k' = k then some v else dget rest k

/-- Python dict assignment `d[k] = v`: replace the value in place when the key
is present (keeping its position), append otherwise. -/
def dinsert {β : Type} (k : String) (v : β) (d : List (String × β)) : List (String × β) :=
  match d with
  | [] => [(k, v)]
  | (k', v') :: rest => if k' = k then (k, v) :: rest else (k', v') :: dinsert k v rest

/-- The keys of a dict, in insertion order. -/
def dkeys {β : Type} (d : List (String × β)) : List String :=
  d.map Prod.fst

/-- Python `str(x)` for the values the module formats into messages and paths.
The repr of containers is abbreviated; no claim evaluates it. -/
def pyStr : JVal → String
  | .str s => s
  | .boolean true => "True"
  | .boolean false => "False"
  | .num n => toString n
  | .nul => "None"
  | .arr _ => "[...]"
  | .obj _ => "\x7b...\x7d"

/-- Python `str(x)` where `x` may be the `None` returned by `dict.get`. -/
def pyStrOpt (v : Option JVal) : String :=
  pyStr (v.getD .nul)

/-- Python truthiness of a value. -/
def pyTruthy : JVal → Bool
  | .str s => !(s == "")
  | .boolean b => b
  | .num n => !(n == 0)
  | .nul => false
  | .arr xs => !xs.isEmpty
  | .obj fs => !fs.isEmpty

/-- Truthiness of an optional string parameter (`None` and `""` are falsy). -/
def truthyOptStr : Option String → Bool
  | none => false
  | some s => !(s == "")

/-- Python `str.lower`, computed structurally over the character list. -/
def strLower (s : String) : String :=
  ⟨s.data.map Char.toLower⟩

/-- Helper of `splitOnChar`: split a character list at a separator character,
carrying the current chunk reversed. -/
def splitOnCharAux (c : Char) : List Char → List Char → List (List Char)
  | [], cur => [cur.reverse]
  | x :: xs, cur =>
    if x = c then cur.reverse :: splitOnCharAux c xs []
    else splitOnCharAux c xs (x :: cur)

/-- Python `str.split(sep)` for a single-character separator: the empty string
yields one empty chunk, separators at either end yield empty chunks. -/
def splitOnChar (s : String) (c : Char) : List String :=
  (splitOnCharAux c s.data []).map String.mk

/-- Join chunks with a single-character separator (reassembly for `rsplit`). -/
def joinWithChar (c : Char) : List String → String
  | [] => ""
  | [x] => x
  | x :: xs => x ++ String.singleton c ++ joinWithChar c xs

/-- Insertion into a key-sorted field list, used to normalize dicts before
Python `==` comparison (which is insertion-order insensitive). -/
def insertField (p : String × JVal) : List (String × JVal) → List (String × JVal)
  | [] => [p]
  | q :: qs => if p.1 ≤ q.1 then p :: q :: qs else q :: insertField p qs

/-- Sort a field list by key (insertion sort). -/
def sortFields : List (String × JVal) → List (String × JVal)
  | [] => []
  | p :: ps => insertField p (sortFields ps)

mutual
/-- Normal form of a value: object fields recursively normalized and sorted by
key, so that structural equality of normal forms models Python `==` on dicts
(whose comparison ignores insertion order). -/
def normJVal : JVal → JVal
  | .str s => .str s
  | .boolean b => .boolean b
  | .num n => .num n
  | .nul => .nul
  | .arr xs => .arr (normList xs)
  | .obj fs => .obj (sortFields (normFields fs))

def normList : List JVal → List JVal
  | [] => []
  | x :: xs => normJVal x :: normList xs

def normFields : List (String × JVal) → List (String × JVal)
  | [] => []
  | f :: fs => (f.1, normJVal f.2) :: normFields fs
end

/-- Python `==` between two parsed values. -/
def pyValEq (a b : JVal) : Bool :=
  beqJVal (normJVal a) (normJVal b)

/-- Python `==` where either side may be `None` from `dict.get`. -/
def pyOptEq (a b : Option JVal) : Bool :=
  match a, b with
  | none, none => true
  | some x, some y => pyValEq x y
  | _, _ => false

/-- Python subscription `v[k]`: KeyError when the key is missing, TypeError on
a non-object. -/
def subscript (v : JVal) (k : String) : Except String JVal :=
  match v with
  | .obj fields =>
    match dget fields k with
    | some x => .ok x
    | none => .error ("KeyError: " ++ k)
  | _ => .error "TypeError: value is not subscriptable"

/-- Python `v[0]` on a list: IndexError when empty, TypeError otherwise. -/
def indexZero (v : JVal) : Except String JVal :=
  match v with
  | .arr [] => .error "IndexError: list index out of range"
  | .arr (x :: _) => .ok x
  | _ => .error "TypeError: value is not indexable"

/-- Python `v.get(k)` on a dict: `None` (absence) when missing,
AttributeError on a non-dict. -/
def pyDictGet (v : JVal) (k : String) : Except String (Option JVal) :=
  match v with
  | .obj fields => .ok (dget fields k)
  | _ => .error "AttributeError: object has no attribute get"

/-- Python `x.lower()` on the result of a `dict.get`: AttributeError on the
`None` of a missing field. -/
def attrLower : Option String → Except String String
  | none => .error "AttributeError: NoneType has no attribute lower"
  | some s => .ok (strLower s)

/-- Python `for x in v` on the result of a `dict.get`: TypeError on the `None`
of a missing field. -/
def iterList {α : Type} : Option (List α) → Except String (List α)
  | none => .error "TypeError: NoneType is not iterable"
  | some xs => .ok xs

/-! Input shapes of the normalizers (`ndi.py`): fields are optional because
the code reads them with `dict.get`. -/

/-- An inner item of an event-severity entry: dict with `bucket` and `count`. -/
structure SevOutput where
  bucket : Option String
  count : Option Int
  deriving Repr, DecidableEq

/-- An event-severity entry: dict with `bucket` and nested `output` list. -/
structure SevEntry where
  bucket : Option String
  output : Option (List SevOutput)
  deriving Repr, DecidableEq

/-- A leaf item of an impacted-resource entry. -/
structure ResOutput where
  bucket : Option String
  count : Option Int
  deriving Repr, DecidableEq

/-- A middle item of an impacted-resource entry: dict with a nested `output`
list of leaves. -/
structure ResMid where
  output : Option (List ResOutput)
  deriving Repr, DecidableEq

/-- An impacted-resource entry: dict with `bucket` and nested `output` list of
middle items. -/
structure ResEntry where
  bucket : Option String
  output : Option (List ResMid)
  deriving Repr, DecidableEq

/-- A message entry: dict with `message` and `severity`. -/
structure PyMessage where
  message : Option String
  severity : Option String
  deriving Repr, DecidableEq

/-- NDI.format_event_severity (ndi.py lines 62-71): for each entry, category
key = suffix after the last underscore of the lower-cased `bucket`; the inner
dict for that key is reset to empty and refilled from the entry's `output`
items, keyed by lower-cased inner `bucket`. -/
def format_event_severity (events_severity : List SevEntry) :
    Except String (List (String × List (String × Option Int))) :=
  events_severity.foldlM (fun result each => do
    let b ← attrLower each.bucket
    let event_severity_type := (splitOnChar b '_').getLastD ""
    let outs ← iterList each.output
    let inner ← outs.foldlM (fun inner output => do
      let epoch ← attrLower output.bucket
      pure (dinsert epoch output.count inner)) ([] : List (String × Option Int))
    pure (dinsert event_severity_type inner result)) []

/-- NDI.format_impacted_resource (ndi.py lines 73-83): outer key = lower-cased
entry `bucket`; the inner dict for that key is reset to empty and refilled from
the leaves of the doubly nested `output` lists, keyed by lower-cased leaf
`bucket`. -/
def format_impacted_resource (impacted_resource : List ResEntry) :
    Except String (List (String × List (String × Option Int))) :=
  impacted_resource.foldlM (fun result each => do
    let resource ← attrLower each.bucket
    let outs ← iterList each.output
    let inner ← outs.foldlM (fun inner output => do
      let epochs ← iterList output.output
      epochs.foldlM (fun inner epoch => do
        let epoch_type ← attrLower epoch.bucket
        pure (dinsert epoch_type epoch.count inner)) inner)
      ([] : List (String × Option Int))
    pure (dinsert resource inner result)) []

/-- NDI.format_messages (ndi.py lines 99-105): maps each lower-cased severity
to the message text; a later entry with the same severity overwrites. -/
def format_messages (messages : List PyMessage) :
    Except String (List (String × Option String)) :=
  messages.foldlM (fun result message => do
    let severity ← attrLower message.severity
    pure (dinsert severity message.message result)) []

/-- The scan of NDI.get_site_id (ndi.py lines 22-24) over the fetched
assurance-entity list: return `site[uuid]` of the first site whose `name`
equals `site_name`; fall through to `None` when no site matches. -/
def get_site_id_scan (sites : List JVal) (site_name : String) :
    Except String (Option JVal) :=
  match sites with
  | [] => .ok none
  | site :: rest => do
    let n ← subscript site "name"
    if pyValEq n (JVal.str site_name) then do
      let u ← subscript site "uuid"
      pure (some u)
    else get_site_id_scan rest site_name

/-- NDI.get_site_id (ndi.py lines 20-24) applied to the parsed response of the
insights-group config query: iterates `obj[value][data][0][assuranceEntities]`. -/
def get_site_id (resp : JVal) (site_name : String) : Except String (Option JVal) := do
  let v ← subscript resp "value"
  let d ← subscript v "data"
  let first ← indexZero d
  let entities ← subscript first "assuranceEntities"
  match entities with
  | .arr sites => get_site_id_scan sites site_name
  | _ => .error "TypeError: value is not iterable"

/-- NDI.get_epochs (ndi.py lines 36-40) applied to the parsed response of the
size-1 FINISHED-epoch query: returns `obj[value][data][0]`. -/
def get_epochs (resp : JVal) : Except String JVal := do
  let v ← subscript resp "value"
  let d ← subscript v "data"
  indexZero d

/-! Pre-change validation lookup (ndi.py lines 26-34 and 142-155). The
abstract HTTP client is an environment mapping a request path to its parsed
response; the list of paths queried, in order, is returned alongside the
result so that temporal claims about network calls can be stated. -/

/-- The abstract read-only HTTP client. -/
structure NDClient where
  query_obj : String → JVal

/-- NDI.config_ig_path (ndi.py line 15). -/
def config_ig_path : String := "config/insightsGroup"

/-- The path queried by NDI.query_pcvs (ndi.py line 143). -/
def pcvs_listing_path (ig_name : String) : String :=
  config_ig_path ++ "/" ++ ig_name ++ "/prechangeAnalysis?$sort=-analysisSubmissionTime"

/-- NDI.query_pcvs (ndi.py lines 142-145): one listing query, then extraction
of `obj[value][data]`. Returns the queried paths and the result. -/
def query_pcvs (env : NDClient) (ig_name : String) :
    List String × Except String JVal :=
  let path := pcvs_listing_path ig_name
  let obj := env.query_obj path
  ([path],
    match subscript obj "value" with
    | .error e => .error e
    | .ok v => subscript v "data")

/-- NDI.get_pre_change_result (ndi.py lines 26-34): scan the pre-change jobs;
for each entry whose `name` and `fabricUuid` both match, query the per-job
result path and keep its `value.data`; the initial result is an empty dict. -/
def get_pre_change_result (env : NDClient) (pcv_results : JVal) (name : String)
    (site_id : Option JVal) (path : String) : List String × Except String JVal :=
  match pcv_results with
  | .arr pcvs =>
    pcvs.foldl (fun acc pcv =>
      match acc with
      | (trace, .error e) => (trace, .error e)
      | (trace, .ok cur) =>
        match pyDictGet pcv "name" with
        | .error e => (trace, .error e)
        | .ok nm =>
          match pyDictGet pcv "fabricUuid" with
          | .error e => (trace, .error e)
          | .ok fu =>
            if pyOptEq nm (some (.str name)) && pyOptEq fu site_id then
              match pyDictGet pcv "jobId" with
              | .error e => (trace, .error e)
              | .ok jid =>
                let p := path ++ "/" ++ pyStrOpt jid
                let obj := env.query_obj p
                match subscript obj "value" with
                | .error e => (trace ++ [p], .error e)
                | .ok v =>
                  match subscript v "data" with
                  | .error e => (trace ++ [p], .error e)
                  | .ok d => (trace ++ [p], .ok d)
            else (trace, .ok cur))
      ([], .ok (.obj []))
  | _ => ([], .error "TypeError: value is not iterable")

/-- Terminal result of an NDI lookup: normal value, `fail_json` (which halts
the invocation immediately), or an uncaught Python exception. -/
inductive PcvResult where
  | ok (v : JVal)
  | failJson (msg : String)
  | pyError (msg : String)
  deriving Repr

/-- NDI.query_pcv (ndi.py lines 147-155): always queries the pre-change job
listing first (`query_pcvs`); only then, if either the job name or the site
name is missing, calls `fail_json`; otherwise resolves the site id (one more
read) and scans for the per-job result. Returns the queried paths in order
together with the outcome. -/
def query_pcv (env : NDClient) (ig_name : String)
    (site_name pcv_name : Option String) : List String × PcvResult :=
  let listing := query_pcvs env ig_name
  match listing.2 with
  | .error e => (listing.1, .pyError e)
  | .ok pcv_results =>
    match pcv_name, site_name with
    | some pname, some sname =>
      let obj := env.query_obj config_ig_path
      let trace := listing.1 ++ [config_ig_path]
      match get_site_id obj sname with
      | .error e => (trace, .pyError e)
      | .ok site_id =>
        let pcv_path := config_ig_path ++ "/" ++ ig_name ++ "/fabric/" ++ sname
          ++ "/prechangeAnalysis"
        let r := get_pre_change_result env pcv_results pname site_id pcv_path
        (trace ++ r.1,
          match r.2 with
          | .ok v => .ok v
          | .error e => .pyError e)
    | _, _ =>
      (listing.1, .failJson "site name and prechange validation job name are required")

/-! The reconciler module `nd_compliance_requirement_config_template.py`. -/

/-- A request issued to the service. -/
inductive Request where
  | get (path : String)
  | post (path : String) (data : List (String × JVal))
  | patch (path : String) (data : List (String × JVal))
  | delete (path : String) (data : List (String × JVal))
  deriving Repr

/-- Whether a request mutates service state. -/
def Request.isMutating : Request → Bool
  | .get _ => false
  | _ => true

/-- Terminal outcome of a module invocation. -/
inductive Outcome where
  | ok
  | failJson (msg : String)
  | pyError (msg : String)
  deriving Repr

/-- The observable result of one module invocation: the requests issued in
order, the outcome, and the reported previous/existing snapshots with the
changed indicator. -/
structure RunResult where
  trace : List Request
  outcome : Outcome
  previous : List (String × JVal)
  existing : List (String × JVal)
  changed : Bool
  deriving Repr

/-- The declared module parameters (module lines 122-129); optional fields are
`None` when not supplied. -/
structure ModuleParams where
  insights_group : String
  name : Option String
  description : Option String
  enabled : Option Bool
  sites : Option (List String)
  state : String
  file : Option String
  selector_based_on_tags : Bool

/-- The `required_if` rules of the module (lines 113-116), enforced by the
host before the module body runs: `absent` requires `name`; `present`
requires `name`, `sites`, `enabled` and `file`. -/
def requiredIfOk (p : ModuleParams) : Bool :=
  (!(p.state == "absent") || p.name.isSome) &&
  (!(p.state == "present") ||
    (p.name.isSome && p.sites.isSome && p.enabled.isSome && p.file.isSome))

/-- The volatile keys stripped before comparison and reporting (module lines
131-143). -/
def delete_keys : List String :=
  ["complianceRequirementAttachments", "uuid", "insightsGroupName", "isAllTraffic",
   "lastEditedDate", "removeNonConfigAttributes", "uploadedFileSize",
   "uploadedFileUploadDate", "links", "uploadedFileExtension", "uploadedFileName"]

/-- Modelled from the spec: `sanitize_dict` is imported from the collection's
`nd` module_utils, which is not among the sources here; per the spec it strips
the listed server-managed/volatile fields from a record before comparison or
reporting. -/
def sanitize_dict (d : List (String × JVal)) (keys : List String) :
    List (String × JVal) :=
  d.filter (fun kv => !(keys.contains kv.1))

/-- Modelled from the spec: `ndi.requirements_path` is referenced by the module
but absent from the `ndi.py` among the sources; it expands to the
requirements collection path of the insights group. -/
def requirements_path (ig : String) : String :=
  config_ig_path ++ "/" ++ ig ++ "/requirements"

/-- Python `os.path.basename` on POSIX paths. -/
def basename (p : String) : String :=
  (splitOnChar p '/').getLastD ""

/-- Python `s.rsplit(".", 1)` unpacked into two names (module line 195):
`none` models the ValueError raised when the string holds no dot. -/
def rsplitDot (s : String) : Option (String × String) :=
  let parts := splitOnChar s '.'
  match parts with
  | [] => none
  | [_] => none
  | _ => some (joinWithChar '.' parts.dropLast, parts.getLastD "")

/-- A `None`-or-string parameter embedded as a value. -/
def jOptStr : Option String → JVal
  | some s => .str s
  | none => .nul

/-- Truthiness of the located UUID (`if uuid:` in the module). -/
def truthyOpt : Option String → Bool
  | none => false
  | some s => !(s == "")

/-- The abstract environment of one module invocation: per-site UUID
resolution results and the `value.data` record of a successful mutating
request. Modelled from the spec: the module resolves each site name through
the resource locator (one read request per site, UUID on exact match, absence
otherwise); the locator variant the module calls is not among the sources. -/
structure MainEnv where
  site_uuid : String → Option String
  mutation_response : List (String × JVal)

/-- The desired-state payload dict (module lines 166-175). -/
def mkPayload (name : String) (enabled : Bool) (sites : List String)
    (env : MainEnv) (selector_based_on_tags : Bool) : List (String × JVal) :=
  [("name", .str name),
   ("enabled", .boolean enabled),
   ("configurationType", .str "TEMPLATE_BASED_CONFIGURATION_COMPLIANCE"),
   ("requirementType", .str "CONFIGURATION_COMPLIANCE"),
   ("associatedSites", .arr (sites.map (fun site =>
      .obj [("enabled", .boolean true), ("uuid", jOptStr (env.site_uuid site))]))),
   ("enableEqualityCheck", .boolean false),
   ("uploadFileType", .str "TEMPLATE_BASED_CONFIG"),
   ("enableSelectorBasedOnTags", .boolean selector_based_on_tags)]

/-- The description handling of the payload (module lines 177-180): a truthy
supplied description is used verbatim; otherwise, when the existing record
holds a truthy description, the single-space string clears it server-side;
otherwise the payload is left without a description key. -/
def updateDescription (payload : List (String × JVal)) (description : Option String)
    (existing : List (String × JVal)) : List (String × JVal) :=
  if truthyOptStr description then
    dinsert "description" (.str (description.getD "")) payload
  else if pyTruthy ((dget existing "description").getD .nul) then
    dinsert "description" (.str " ") payload
  else payload

/-- Modelled from the spec: the host base module reports a changed/unchanged
indicator on exit; a run is reported changed exactly when the reported
existing state differs (as Python dict equality) from the previous snapshot. -/
def report_changed (previous existing : List (String × JVal)) : Bool :=
  !(pyValEq (.obj existing) (.obj previous))

/-- The tail of the present branch (module lines 195-198): rsplit the file
basename into name and extension (ValueError when the basename has no dot) and
attach both to the reported previous and existing snapshots. -/
def finishPresent (trace : List Request) (previous existing : List (String × JVal))
    (file : String) : RunResult :=
  match rsplitDot (basename file) with
  | none =>
    { trace := trace, outcome := .pyError "ValueError: not enough values to unpack",
      previous := previous, existing := existing, changed := false }
  | some (filename, extension) =>
    let previous := dinsert "uploadedFileName" (.str filename)
      (dinsert "uploadedFileExtension" (.str extension) previous)
    let existing := dinsert "uploadedFileName" (.str filename)
      (dinsert "uploadedFileExtension" (.str extension) existing)
    { trace := trace, outcome := .ok, previous := previous, existing := existing,
      changed := report_changed previous existing }

/-- The present branch of the module (lines 157-198), entered with the listed
parameters already validated by `required_if`. -/
def runPresent (p : ModuleParams) (check_mode : Bool) (uuid : Option String)
    (existing0 : List (String × JVal)) (env : MainEnv) (trace0 : List Request)
    (name : String) (enabled : Bool) (sites : List String) (file : String) :
    RunResult :=
  let path := requirements_path p.insights_group
  let filename := pyStrOpt (dget existing0 "uploadedFileName") ++ "." ++
    pyStrOpt (dget existing0 "uploadedFileExtension")
  if truthyOpt uuid && !(filename == basename file) then
    { trace := trace0,
      outcome := .failJson ("File provided " ++ basename file ++
        " is not matching file " ++ filename ++ " of existing requirement"),
      previous := [], existing := existing0, changed := false }
  else
    let previous := sanitize_dict existing0 delete_keys
    let trace1 := trace0 ++ sites.map (fun _ => Request.get config_ig_path)
    let payload := updateDescription
      (mkPayload name enabled sites env p.selector_based_on_tags)
      p.description existing0
    if !check_mode && !(pyValEq (.obj payload) (.obj previous)) then
      match uuid with
      | some u =>
        let payload2 := dinsert "uuid" (.str u) payload
        finishPresent (trace1 ++ [.patch (path ++ "/" ++ u) payload2]) previous
          (sanitize_dict env.mutation_response delete_keys) file
      | none =>
        let payload2 := dinsert "uploadedFileName" (.str file) payload
        finishPresent (trace1 ++ [.post (path ++ "/file") payload2]) previous
          (sanitize_dict env.mutation_response delete_keys) file
    else
      finishPresent trace1 previous payload file

/-- One invocation of the module's `main` (lines 105-200). `located` is the
result of the requirement locator (modelled from the spec: the listing is one
read request and `set_requirement_details` yields the matched record's UUID
and the record itself, or nothing), supplied abstractly together with the
site-resolution environment. -/
def mainRun (p : ModuleParams) (check_mode : Bool)
    (located : Option (String × List (String × JVal))) (env : MainEnv) : RunResult :=
  if !(requiredIfOk p) then
    { trace := [], outcome := .failJson "missing required arguments",
      previous := [], existing := [], changed := false }
  else
    let uuid := located.map Prod.fst
    let existing0 := (located.map Prod.snd).getD []
    let path := requirements_path p.insights_group
    let trace0 := [Request.get path]
    if p.state == "absent" && truthyOpt uuid then
      match uuid with
      | some u =>
        let previous := sanitize_dict existing0 delete_keys
        let trace := if check_mode then trace0
          else trace0 ++ [.delete path [("ids", .arr [.str u])]]
        { trace := trace, outcome := .ok, previous := previous, existing := [],
          changed := report_changed previous [] }
      | none =>
        { trace := trace0, outcome := .ok, previous := [], existing := existing0,
          changed := report_changed [] existing0 }
    else if p.state == "present" then
      match p.name, p.enabled, p.sites, p.file with
      | some name, some enabled, some sites, some file =>
        runPresent p check_mode uuid existing0 env trace0 name enabled sites file
      | _, _, _, _ =>
        { trace := trace0, outcome := .failJson "missing required arguments",
          previous := [], existing := [], changed := false }
    else
      { trace := trace0, outcome := .ok, previous := [], existing := existing0,
        changed := report_changed [] existing0 }

/-! Well-formed telemetry inputs per the documented schema: every entry has
its `bucket` string and its `output` list, every leaf has its `bucket`. The
embeddings below inject them into the optional-field shapes the code reads. -/

/-- A well-formed event-severity inner item. -/
structure WfSevItem where
  bucket : String
  count : Option Int
  deriving Repr, DecidableEq

/-- A well-formed event-severity entry. -/
structure WfSevEntry where
  bucket : String
  output : List WfSevItem
  deriving Repr, DecidableEq

/-- Injection of a well-formed inner item into the read shape. -/
def WfSevItem.toItem (i : WfSevItem) : SevOutput :=
  ⟨some i.bucket, i.count⟩

/-- Injection of a well-formed entry into the read shape. -/
def WfSevEntry.toEntry (e : WfSevEntry) : SevEntry :=
  ⟨some e.bucket, some (e.output.map WfSevItem.toItem)⟩

/-- The category key derived from an entry bucket: suffix after the last
underscore of the lower-cased bucket. -/
def sevCategoryKey (e : WfSevEntry) : String :=
  (splitOnChar (strLower e.bucket) '_').getLastD ""

/-- The inner dict built for one event-severity entry. -/
def sevInnerEval (e : WfSevEntry) : List (String × Option Int) :=
  e.output.foldl (fun inner i => dinsert (strLower i.bucket) i.count inner) []

/-- The value `format_event_severity` computes on a well-formed input. -/
def sevEval (ws : List WfSevEntry) : List (String × List (String × Option Int)) :=
  ws.foldl (fun result e => dinsert (sevCategoryKey e) (sevInnerEval e) result) []

/-- A well-formed impacted-resource leaf. -/
structure WfResItem where
  bucket : String
  count : Option Int
  deriving Repr, DecidableEq

/-- A well-formed impacted-resource middle item. -/
structure WfResMid where
  output : List WfResItem
  deriving Repr, DecidableEq

/-- A well-formed impacted-resource entry. -/
structure WfResEntry where
  bucket : String
  output : List WfResMid
  deriving Repr, DecidableEq

/-- Injection of a well-formed leaf into the read shape. -/
def WfResItem.toItem (i : WfResItem) : ResOutput :=
  ⟨some i.bucket, i.count⟩

/-- Injection of a well-formed middle item into the read shape. -/
def WfResMid.toMid (m : WfResMid) : ResMid :=
  ⟨some (m.output.map WfResItem.toItem)⟩

/-- Injection of a well-formed entry into the read shape. -/
def WfResEntry.toEntry (e : WfResEntry) : ResEntry :=
  ⟨some e.bucket, some (e.output.map WfResMid.toMid)⟩

/-- The inner dict built for one impacted-resource entry. -/
def resInnerEval (e : WfResEntry) : List (String × Option Int) :=
  e.output.foldl (fun inner m =>
    m.output.foldl (fun inner i => dinsert (strLower i.bucket) i.count inner) inner) []

/-- The value `format_impacted_resource` computes on a well-formed input. -/
def resEval (ws : List WfResEntry) : List (String × List (String × Option Int)) :=
  ws.foldl (fun result e => dinsert (strLower e.bucket) (resInnerEval e) result) []

/-- Stated from the spec for comparison: the leaf `(category, epoch)` pairs
present in a well-formed event-severity input, category = derived entry key,
epoch = lower-cased leaf bucket. -/
def sevLeafPairs (ws : List WfSevEntry) : List (String × String) :=
  ws.flatMap (fun e => e.output.map (fun i => (sevCategoryKey e, strLower i.bucket)))

/-- Stated from the spec for comparison: the leaf `(resource, epoch)` pairs
present in a well-formed impacted-resource input. -/
def resLeafPairs (ws : List WfResEntry) : List (String × String) :=
  ws.flatMap (fun e => e.output.flatMap (fun m =>
    m.output.map (fun i => (strLower e.bucket, strLower i.bucket))))

/-- The `(outer key, inner key)` pairs of a returned two-level mapping. -/
def dictPairs (d : List (String × List (String × Option Int))) :
    List (String × String) :=
  d.flatMap (fun kv => kv.2.map (fun p => (kv.1, p.1)))

/-- The severity key the message normalizer derives for an entry. -/
def msgKey (m : PyMessage) : String :=
  strLower (m.severity.getD "")

/-- The last message of the list bearing the given lower-cased severity, the
later entry winning. -/
def lastMessageFor (messages : List PyMessage) (k : String) : Option PyMessage :=
  messages.foldl (fun acc m => if msgKey m = k then some m else acc) none

/-- The value `format_messages` computes when every severity is present. -/
def format_messages_total (messages : List PyMessage) : List (String × Option String) :=
  messages.foldl (fun result m => dinsert (msgKey m) m.message result) []

/-! Dictionary lemmas. -/

@[simp] theorem dget_nil {β : Type} (k : String) :
    dget ([] : List (String × β)) k = none := rfl

@[simp] theorem dget_cons {β : Type} (k' : String) (v' : β) (rest : List (String × β))
    (k : String) :
    dget ((k', v') :: rest) k = if k' = k then some v' else dget rest k := rfl

@[simp] theorem dinsert_nil {β : Type} (k : String) (v : β) :
    dinsert k v ([] : List (String × β)) = [(k, v)] := rfl

@[simp] theorem dinsert_cons {β : Type} (k : String) (v : β) (k' : String) (v' : β)
    (rest : List (String × β)) :
    dinsert k v ((k', v') :: rest) =
      if k' = k then (k, v) :: rest else (k', v') :: dinsert k v rest := rfl

@[simp] theorem dkeys_nil {β : Type} : dkeys ([] : List (String × β)) = [] := rfl

@[simp] theorem dkeys_cons {β : Type} (k' : String) (v' : β) (rest : List (String × β)) :
    dkeys ((k', v') :: rest) = k' :: dkeys rest := rfl

theorem dget_dinsert_self {β : Type} (k : String) (v : β) (d : List (String × β)) :
    dget (dinsert k v d) k = some v := by
  induction d with
  | nil => simp
  | cons p rest ih =>
    obtain ⟨k', v'⟩ := p
    by_cases h : k' = k
    · subst h
      simp
    · simp [h, ih]

theorem dget_dinsert_ne {β : Type} (k a : String) (v : β) (d : List (String × β))
    (h : a ≠ k) : dget (dinsert k v d) a = dget d a := by
  induction d with
  | nil => simp [Ne.symm h]
  | cons p rest ih =>
    obtain ⟨k', v'⟩ := p
    by_cases hk : k' = k
    · subst hk
      simp [Ne.symm h]
    · by_cases ha : k' = a
      · subst ha
        simp [hk]
      · simp [hk, ha, ih]

theorem mem_dkeys_dinsert {β : Type} (k a : String) (v : β) (d : List (String × β)) :
    a ∈ dkeys (dinsert k v d) ↔ a = k ∨ a ∈ dkeys d := by
  induction d with
  | nil => simp
  | cons p rest ih =>
    obtain ⟨k', v'⟩ := p
    by_cases h : k' = k
    · subst h
      simp [List.mem_cons]
    · simp only [dinsert_cons, if_neg h, dkeys_cons, List.mem_cons, ih]
      tauto

theorem nodup_dkeys_dinsert {β : Type} (k : String) (v : β) (d : List (String × β))
    (h : (dkeys d).Nodup) : (dkeys (dinsert k v d)).Nodup := by
  induction d with
  | nil => simp
  | cons p rest ih =>
    obtain ⟨k', v'⟩ := p
    simp only [dkeys_cons, List.nodup_cons] at h
    by_cases hk : k' = k
    · subst hk
      simpa using h
    · have h2 := ih h.2
      simp only [dinsert_cons, if_neg hk, dkeys_cons, List.nodup_cons]
      refine ⟨?_, h2⟩
      intro hmem
      rcases (mem_dkeys_dinsert k k' v rest).mp hmem with h1 | h1
      · exact hk h1
      · exact h.1 h1

theorem dinsert_not_mem {β : Type} (k : String) (v : β) (d : List (String × β))
    (h : k ∉ dkeys d) : dinsert k v d = d ++ [(k, v)] := by
  induction d with
  | nil => simp
  | cons p rest ih =>
    obtain ⟨k', v'⟩ := p
    simp only [dkeys_cons, List.mem_cons] at h
    push_neg at h
    simp [Ne.symm h.1, ih h.2]

theorem mem_dkeys_foldl_dinsert {β γ : Type} (key : γ → String) (val : γ → β)
    (xs : List γ) (acc : List (String × β)) (a : String) :
    (a ∈ dkeys (xs.foldl (fun d x => dinsert (key x) (val x) d) acc)) ↔
      ((∃ x ∈ xs, key x = a) ∨ a ∈ dkeys acc) := by
  induction xs generalizing acc with
  | nil => simp
  | cons x rest ih =>
    simp only [List.foldl_cons, ih, mem_dkeys_dinsert]
    constructor
    · rintro (⟨y, hy, hk⟩ | hk | hk)
      · exact Or.inl ⟨y, List.mem_cons_of_mem x hy, hk⟩
      · exact Or.inl ⟨x, List.mem_cons_self x rest, hk.symm⟩
      · exact Or.inr hk
    · rintro (⟨y, hy, hk⟩ | hk)
      · rcases List.mem_cons.mp hy with rfl | hy
        · exact Or.inr (Or.inl hk.symm)
        · exact Or.inl ⟨y, hy, hk⟩
      · exact Or.inr (Or.inr hk)

theorem nodup_dkeys_foldl_dinsert {β γ : Type} (key : γ → String) (val : γ → β)
    (xs : List γ) (acc : List (String × β)) (h : (dkeys acc).Nodup) :
    (dkeys (xs.foldl (fun d x => dinsert (key x) (val x) d) acc)).Nodup := by
  induction xs generalizing acc with
  | nil => simpa using h
  | cons x rest ih =>
    simpa using ih _ (nodup_dkeys_dinsert _ _ _ h)

/-- String comparison through Python equality on values. -/
theorem pyValEq_str_right (n : JVal) (b : String) :
    (pyValEq n (.str b) = true) ↔ n = .str b := by
  cases n <;> simp [pyValEq, normJVal, beqJVal]

@[simp] theorem bind_ok_eq {ε α β : Type} (a : α) (f : α → Except ε β) :
    (Except.ok a : Except ε α) >>= f = f a := rfl

@[simp] theorem bind_error_eq {ε α β : Type} (e : ε) (f : α → Except ε β) :
    (Except.error e : Except ε α) >>= f = .error e := rfl

@[simp] theorem attrLower_some (s : String) : attrLower (some s) = .ok (strLower s) := rfl

@[simp] theorem attrLower_none :
    attrLower none = .error "AttributeError: NoneType has no attribute lower" := rfl

@[simp] theorem iterList_some {α : Type} (xs : List α) : iterList (some xs) = .ok xs := rfl

@[simp] theorem iterList_none {α : Type} :
    iterList (none : Option (List α)) =
      .error "TypeError: NoneType is not iterable" := rfl

/-- C8 (counterexample): on a well-formed response whose filtered epoch list
is empty, `get_epochs` does not return an explicit absence value: the
subscription `data[0]` raises an IndexError, falsifying the claim that an
empty filtered list yields a "not found" value rather than raising. -/
theorem get_epochs_empty_raises :
    get_epochs (.obj [("value", .obj [("data", .arr [])])]) =
      .error "IndexError: list index out of range" := rfl

/-- C8 (amended): `get_epochs` returns the single leading epoch record when
the filtered list of the response is non-empty, and raises an IndexError
(aborting the call) when the filtered list is empty. -/
theorem get_epochs_first_or_empty_error (resp value : JVal) (data : List JVal)
    (hv : subscript resp "value" = .ok value)
    (hd : subscript value "data" = .ok (.arr data)) :
    (∀ x rest, data = x :: rest → get_epochs resp = .ok x) ∧
    (data = [] → get_epochs resp = .error "IndexError: list index out of range") := by
  constructor
  · rintro x rest rfl
    simp [get_epochs, hv, hd, indexZero]
  · rintro rfl
    simp [get_epochs, hv, hd, indexZero]

/-- C8 (witness): the amended theorem applied to a one-element epoch list. -/
theorem get_epochs_first_or_empty_error_witness :
    subscript (JVal.obj [("value", .obj [("data", .arr [.str "ep1"])])]) "value" =
        .ok (.obj [("data", .arr [.str "ep1"])]) ∧
      subscript (JVal.obj [("data", .arr [.str "ep1"])]) "data" =
        .ok (.arr [.str "ep1"]) ∧
      get_epochs (.obj [("value", .obj [("data", .arr [.str "ep1"])])]) =
        .ok (.str "ep1") :=
  ⟨rfl, rfl,
    (get_epochs_first_or_empty_error
      (.obj [("value", .obj [("data", .arr [.str "ep1"])])])
      (.obj [("data", .arr [.str "ep1"])]) [.str "ep1"] rfl rfl).1 (.str "ep1") [] rfl⟩

/-- C9: over a fetched site list in which every site carries a `name` and a
`uuid` field, the scan of `get_site_id` returns the `uuid` of a site whose
`name` equals the requested name exactly when one exists, and returns the
absence value `None` without raising when no site name matches. -/
theorem get_site_id_scan_spec (sites : List JVal) (site_name : String)
    (hwf : ∀ s ∈ sites,
      (∃ v, subscript s "name" = .ok v) ∧ ∃ u, subscript s "uuid" = .ok u) :
    ((∃ s ∈ sites, subscript s "name" = .ok (.str site_name)) →
      ∃ s ∈ sites, subscript s "name" = .ok (.str site_name) ∧
        ∃ u, subscript s "uuid" = .ok u ∧
          get_site_id_scan sites site_name = .ok (some u)) ∧
    ((∀ s ∈ sites, subscript s "name" ≠ .ok (.str site_name)) →
      get_site_id_scan sites site_name = .ok none) := by
  induction sites with
  | nil => simp [get_site_id_scan]
  | cons s rest ih =>
    obtain ⟨⟨v, hv⟩, ⟨u, hu⟩⟩ := hwf s (List.mem_cons_self s rest)
    have ih' := ih (fun s' hs' => hwf s' (List.mem_cons_of_mem _ hs'))
    by_cases hmatch : v = .str site_name
    · subst hmatch
      have hc : pyValEq (JVal.str site_name) (.str site_name) = true :=
        (pyValEq_str_right _ _).mpr rfl
      constructor
      · intro _
        refine ⟨s, List.mem_cons_self s rest, hv, u, hu, ?_⟩
        simp [get_site_id_scan, hv, hc, hu]
      · intro hall
        exact absurd hv (hall s (List.mem_cons_self s rest))
    · have hcond : pyValEq v (.str site_name) = false := by
        cases hpe : pyValEq v (JVal.str site_name)
        · rfl
        · exact absurd ((pyValEq_str_right v site_name).mp hpe) hmatch
      have hstep : get_site_id_scan (s :: rest) site_name =
          get_site_id_scan rest site_name := by
        simp [get_site_id_scan, hv, hcond]
      constructor
      · rintro ⟨s', hs', hname⟩
        rcases List.mem_cons.mp hs' with rfl | hs'
        · rw [hv] at hname
          exact absurd (Except.ok.inj hname) hmatch
        · obtain ⟨s'', hs'', h1, u'', h2, h3⟩ := ih'.1 ⟨s', hs', hname⟩
          exact ⟨s'', List.mem_cons_of_mem _ hs'', h1, u'', h2, by rw [hstep]; exact h3⟩
      · intro hall
        rw [hstep]
        exact ih'.2 (fun s' hs' => hall s' (List.mem_cons_of_mem _ hs'))

/-! Message normalizer lemmas. -/

theorem format_messages_go (messages : List PyMessage)
    (h : ∀ m ∈ messages, m.severity.isSome) :
    ∀ acc : List (String × Option String),
      messages.foldlM
        (fun result message => do
          let severity ← attrLower message.severity
          pure (dinsert severity message.message result)) acc =
      .ok (messages.foldl (fun result m => dinsert (msgKey m) m.message result) acc) := by
  induction messages with
  | nil =>
    intro acc
    rfl
  | cons m rest ih =>
    intro acc
    obtain ⟨s, hs⟩ := Option.isSome_iff_exists.mp (h m (List.mem_cons_self m rest))
    have hrest := fun m' hm' => h m' (List.mem_cons_of_mem m hm')
    have hk : msgKey m = strLower s := by simp [msgKey, hs]
    simp only [List.foldlM_cons, hs, attrLower_some, bind_ok_eq, pure_bind,
      List.foldl_cons, hk]
    exact ih hrest (dinsert (strLower s) m.message acc)

theorem format_messages_eq_total (messages : List PyMessage)
    (h : ∀ m ∈ messages, m.severity.isSome) :
    format_messages messages = .ok (format_messages_total messages) :=
  format_messages_go messages h []

theorem foldl_lastStep_init (k : String) (messages : List PyMessage) :
    ∀ init, messages.foldl (fun acc m => if msgKey m = k then some m else acc) init =
      match lastMessageFor messages k with
      | some m => some m
      | none => init := by
  induction messages with
  | nil =>
    intro init
    simp [lastMessageFor]
  | cons m rest ih =>
    intro init
    have h1 : lastMessageFor (m :: rest) k =
        rest.foldl (fun acc m' => if msgKey m' = k then some m' else acc)
          (if msgKey m = k then some m else none) := rfl
    have hcons : lastMessageFor (m :: rest) k =
        match lastMessageFor rest k with
        | some m' => some m'
        | none => if msgKey m = k then some m else none := by
      rw [h1, ih]
    simp only [List.foldl_cons]
    rw [ih, hcons]
    cases hl : lastMessageFor rest k with
    | none => by_cases hm : msgKey m = k <;> simp [hm]
    | some m' => simp

theorem lastMessageFor_cons (m : PyMessage) (rest : List PyMessage) (k : String) :
    lastMessageFor (m :: rest) k =
      match lastMessageFor rest k with
      | some m' => some m'
      | none => if msgKey m = k then some m else none := by
  have h1 : lastMessageFor (m :: rest) k =
      rest.foldl (fun acc m' => if msgKey m' = k then some m' else acc)
        (if msgKey m = k then some m else none) := rfl
  rw [h1, foldl_lastStep_init]

theorem dget_format_messages_total_go (k : String) (messages : List PyMessage) :
    ∀ acc,
      dget (messages.foldl (fun result m => dinsert (msgKey m) m.message result) acc) k =
      match lastMessageFor messages k with
      | some m => some m.message
      | none => dget acc k := by
  induction messages with
  | nil =>
    intro acc
    simp [lastMessageFor]
  | cons m rest ih =>
    intro acc
    simp only [List.foldl_cons]
    rw [ih, lastMessageFor_cons]
    cases hl : lastMessageFor rest k with
    | some m' => simp
    | none =>
      by_cases hm : msgKey m = k
      · subst hm
        simp [dget_dinsert_self]
      · simp [hm, dget_dinsert_ne _ _ _ _ (Ne.symm hm)]

/-- C6: on a message list in which every entry carries a severity, the
normalizer returns a mapping whose keys are exactly the distinct lower-cased
severities (each occurring once), and the value at each key is the message
text of the last input message bearing that severity. -/
theorem format_messages_spec (messages : List PyMessage)
    (h : ∀ m ∈ messages, m.severity.isSome) :
    ∃ r, format_messages messages = .ok r ∧
      (dkeys r).Nodup ∧
      (∀ k, k ∈ dkeys r ↔ ∃ m ∈ messages, msgKey m = k) ∧
      (∀ k, dget r k = (lastMessageFor messages k).map (fun m => m.message)) := by
  refine ⟨format_messages_total messages, format_messages_eq_total messages h, ?_, ?_, ?_⟩
  · exact nodup_dkeys_foldl_dinsert msgKey (fun m => m.message) messages [] (by simp)
  · intro k
    unfold format_messages_total
    rw [mem_dkeys_foldl_dinsert msgKey (fun m => m.message)]
    simp
  · intro k
    unfold format_messages_total
    rw [dget_format_messages_total_go]
    cases hl : lastMessageFor messages k <;> simp

/-- C6 (witness): the specification applied to a list in which two messages
share the lower-cased severity `info`. -/
theorem format_messages_spec_witness :
    (∀ m ∈ [PyMessage.mk (some "m1") (some "INFO"),
            PyMessage.mk (some "m2") (some "info")], m.severity.isSome) ∧
    (∃ r, format_messages [PyMessage.mk (some "m1") (some "INFO"),
            PyMessage.mk (some "m2") (some "info")] = .ok r ∧
      (dkeys r).Nodup ∧
      (∀ k, k ∈ dkeys r ↔ ∃ m ∈ [PyMessage.mk (some "m1") (some "INFO"),
            PyMessage.mk (some "m2") (some "info")], msgKey m = k) ∧
      (∀ k, dget r k =
        (lastMessageFor [PyMessage.mk (some "m1") (some "INFO"),
            PyMessage.mk (some "m2") (some "info")] k).map (fun m => m.message))) :=
  ⟨by decide, format_messages_spec _ (by decide)⟩

/-! Bucketed-telemetry normalizer lemmas. -/

@[simp] theorem dkeys_append {β : Type} (a b : List (String × β)) :
    dkeys (a ++ b) = dkeys a ++ dkeys b := by
  simp [dkeys]

theorem foldl_dinsert_append {β γ : Type} (key : γ → String) (val : γ → β) :
    ∀ (xs : List γ) (acc : List (String × β)),
      (∀ x ∈ xs, key x ∉ dkeys acc) → (xs.map key).Nodup →
      xs.foldl (fun d x => dinsert (key x) (val x) d) acc =
        acc ++ xs.map (fun x => (key x, val x)) := by
  intro xs
  induction xs with
  | nil =>
    intro acc _ _
    simp
  | cons x rest ih =>
    intro acc hfresh hnodup
    simp only [List.map_cons, List.nodup_cons, List.mem_map] at hnodup
    have hx : key x ∉ dkeys acc := hfresh x (List.mem_cons_self x rest)
    have hstep : dinsert (key x) (val x) acc = acc ++ [(key x, val x)] :=
      dinsert_not_mem _ _ _ hx
    have hfresh' : ∀ y ∈ rest, key y ∉ dkeys (acc ++ [(key x, val x)]) := by
      intro y hy
      simp only [dkeys_append, List.mem_append, dkeys_cons, dkeys_nil,
        List.mem_singleton]
      push_neg
      refine ⟨hfresh y (List.mem_cons_of_mem x hy), ?_⟩
      intro hxy
      exact hnodup.1 ⟨y, hy, hxy⟩
    simp only [List.foldl_cons, hstep, ih _ hfresh' hnodup.2, List.map_cons,
      List.append_assoc, List.singleton_append]

theorem format_event_severity_inner_go (items : List WfSevItem) :
    ∀ acc : List (String × Option Int),
      (items.map WfSevItem.toItem).foldlM
        (fun (inner : List (String × Option Int)) (output : SevOutput) => do
          let epoch ← attrLower output.bucket
          pure (dinsert epoch output.count inner)) acc =
      .ok (items.foldl (fun inner i => dinsert (strLower i.bucket) i.count inner) acc) := by
  induction items with
  | nil =>
    intro acc
    rfl
  | cons i rest ih =>
    intro acc
    simp only [List.map_cons, List.foldlM_cons, WfSevItem.toItem, attrLower_some,
      bind_ok_eq, pure_bind, List.foldl_cons]
    exact ih _

theorem format_event_severity_go (ws : List WfSevEntry) :
    ∀ acc,
      (ws.map WfSevEntry.toEntry).foldlM
        (fun result (each : SevEntry) => do
          let b ← attrLower each.bucket
          let event_severity_type := (splitOnChar b '_').getLastD ""
          let outs ← iterList each.output
          let inner ← outs.foldlM
            (fun (inner : List (String × Option Int)) (output : SevOutput) => do
              let epoch ← attrLower output.bucket
              pure (dinsert epoch output.count inner)) ([] : List (String × Option Int))
          pure (dinsert event_severity_type inner result)) acc =
      .ok (ws.foldl (fun result e => dinsert (sevCategoryKey e) (sevInnerEval e) result) acc) := by
  induction ws with
  | nil =>
    intro acc
    rfl
  | cons e rest ih =>
    intro acc
    simp only [List.map_cons, List.foldlM_cons, WfSevEntry.toEntry, attrLower_some,
      bind_ok_eq, iterList_some, List.foldl_cons]
    rw [format_event_severity_inner_go]
    simp only [bind_ok_eq, pure_bind]
    exact ih (dinsert (sevCategoryKey e) (sevInnerEval e) acc)

theorem format_event_severity_wf (ws : List WfSevEntry) :
    format_event_severity (ws.map WfSevEntry.toEntry) = .ok (sevEval ws) :=
  format_event_severity_go ws []

theorem format_impacted_resource_leaf_go (items : List WfResItem) :
    ∀ acc : List (String × Option Int),
      (items.map WfResItem.toItem).foldlM
        (fun (inner : List (String × Option Int)) (epoch : ResOutput) => do
          let epoch_type ← attrLower epoch.bucket
          pure (dinsert epoch_type epoch.count inner)) acc =
      .ok (items.foldl (fun inner i => dinsert (strLower i.bucket) i.count inner) acc) := by
  induction items with
  | nil =>
    intro acc
    rfl
  | cons i rest ih =>
    intro acc
    simp only [List.map_cons, List.foldlM_cons, WfResItem.toItem, attrLower_some,
      bind_ok_eq, pure_bind, List.foldl_cons]
    exact ih _

theorem format_impacted_resource_mid_go (mids : List WfResMid) :
    ∀ acc : List (String × Option Int),
      (mids.map WfResMid.toMid).foldlM
        (fun (inner : List (String × Option Int)) (output : ResMid) => do
          let epochs ← iterList output.output
          epochs.foldlM (fun (inner : List (String × Option Int)) (epoch : ResOutput) => do
            let epoch_type ← attrLower epoch.bucket
            pure (dinsert epoch_type epoch.count inner)) inner) acc =
      .ok (mids.foldl (fun inner m =>
        m.output.foldl (fun inner i => dinsert (strLower i.bucket) i.count inner) inner) acc) := by
  induction mids with
  | nil =>
    intro acc
    rfl
  | cons m rest ih =>
    intro acc
    simp only [List.map_cons, List.foldlM_cons, WfResMid.toMid, iterList_some,
      bind_ok_eq, List.foldl_cons]
    rw [format_impacted_resource_leaf_go]
    simp only [bind_ok_eq]
    exact ih _

theorem format_impacted_resource_go (ws : List WfResEntry) :
    ∀ acc,
      (ws.map WfResEntry.toEntry).foldlM
        (fun result (each : ResEntry) => do
          let resource ← attrLower each.bucket
          let outs ← iterList each.output
          let inner ← outs.foldlM
            (fun (inner : List (String × Option Int)) (output : ResMid) => do
              let epochs ← iterList output.output
              epochs.foldlM
                (fun (inner : List (String × Option Int)) (epoch : ResOutput) => do
                  let epoch_type ← attrLower epoch.bucket
                  pure (dinsert epoch_type epoch.count inner)) inner)
            ([] : List (String × Option Int))
          pure (dinsert resource inner result)) acc =
      .ok (ws.foldl (fun result e => dinsert (strLower e.bucket) (resInnerEval e) result) acc) := by
  induction ws with
  | nil =>
    intro acc
    rfl
  | cons e rest ih =>
    intro acc
    simp only [List.map_cons, List.foldlM_cons, WfResEntry.toEntry, attrLower_some,
      bind_ok_eq, iterList_some, List.foldl_cons]
    rw [format_impacted_resource_mid_go]
    simp only [bind_ok_eq, pure_bind]
    exact ih (dinsert (strLower e.bucket) (resInnerEval e) acc)

theorem format_impacted_resource_wf (ws : List WfResEntry) :
    format_impacted_resource (ws.map WfResEntry.toEntry) = .ok (resEval ws) :=
  format_impacted_resource_go ws []

theorem mem_dkeys_sevInnerEval (e : WfSevEntry) (k : String) :
    k ∈ dkeys (sevInnerEval e) ↔ ∃ i ∈ e.output, strLower i.bucket = k := by
  unfold sevInnerEval
  rw [mem_dkeys_foldl_dinsert (fun (i : WfSevItem) => strLower i.bucket) (fun (i : WfSevItem) => i.count)]
  simp

theorem mem_dkeys_resInnerEval (e : WfResEntry) (k : String) :
    k ∈ dkeys (resInnerEval e) ↔ ∃ m ∈ e.output, ∃ i ∈ m.output, strLower i.bucket = k := by
  unfold resInnerEval
  suffices h : ∀ (mids : List WfResMid) (acc : List (String × Option Int)),
      k ∈ dkeys (mids.foldl (fun inner m =>
        m.output.foldl (fun inner i => dinsert (strLower i.bucket) i.count inner) inner) acc) ↔
      ((∃ m ∈ mids, ∃ i ∈ m.output, strLower i.bucket = k) ∨ k ∈ dkeys acc) by
    simpa using h e.output []
  intro mids
  induction mids with
  | nil =>
    intro acc
    simp
  | cons m rest ih =>
    intro acc
    simp only [List.foldl_cons]
    rw [ih, mem_dkeys_foldl_dinsert (fun (i : WfResItem) => strLower i.bucket) (fun (i : WfResItem) => i.count)]
    simp only [List.mem_cons]
    constructor
    · rintro (⟨m', hm', hi⟩ | ⟨i, hi, hk⟩ | hk)
      · exact Or.inl ⟨m', Or.inr hm', hi⟩
      · exact Or.inl ⟨m, Or.inl rfl, i, hi, hk⟩
      · exact Or.inr hk
    · rintro (⟨m', hm' | hm', hi⟩ | hk)
      · subst hm'
        exact Or.inr (Or.inl hi)
      · exact Or.inl ⟨m', hm', hi⟩
      · exact Or.inr (Or.inr hk)

theorem mem_dictPairs (d : List (String × List (String × Option Int))) (a b : String) :
    ((a, b) ∈ dictPairs d) ↔ ∃ kv ∈ d, kv.1 = a ∧ b ∈ dkeys kv.2 := by
  simp only [dictPairs, List.mem_flatMap, List.mem_map, Prod.mk.injEq]
  constructor
  · rintro ⟨kv, hkv, p, hp, ha, hb⟩
    exact ⟨kv, hkv, ha, by
      rw [← hb]
      exact List.mem_map_of_mem Prod.fst hp⟩
  · rintro ⟨kv, hkv, ha, hb⟩
    obtain ⟨p, hp, hpb⟩ := List.mem_map.mp hb
    exact ⟨kv, hkv, p, hp, ha, hpb⟩

/-- C1 (counterexample): two entries with distinct raw buckets but the same
derived category key (`A_HIGH` and `B_HIGH` both derive `high`): the second
entry resets the category's inner dict, so the leaf `(high, e1)` present in
the input is dropped from the returned mapping, falsifying the claimed
key-set equality for `format_event_severity` (and hence for the conjunction
over both normalizers). -/
theorem format_event_severity_drops_leaf :
    format_event_severity
      [SevEntry.mk (some "A_HIGH") (some [SevOutput.mk (some "E1") (some 1)]),
       SevEntry.mk (some "B_HIGH") (some [SevOutput.mk (some "E2") (some 2)])] =
      .ok [("high", [("e2", some 2)])] ∧
    ("high", "e1") ∈ sevLeafPairs
      [WfSevEntry.mk "A_HIGH" [WfSevItem.mk "E1" (some 1)],
       WfSevEntry.mk "B_HIGH" [WfSevItem.mk "E2" (some 2)]] ∧
    ("high", "e1") ∉ dictPairs [("high", [("e2", some 2)])] := by
  refine ⟨rfl, ?_, ?_⟩
  · simp [sevLeafPairs, sevCategoryKey]
    left
    decide
  · rw [mem_dictPairs]
    decide

/-- C1 (amended): on well-formed inputs whose derived outer keys are pairwise
distinct (the underscore-suffix category key for `format_event_severity`, the
lower-cased bucket for `format_impacted_resource`), the set of
`(category, epoch)` pairs of the returned mapping equals the set of leaf
bucket pairs of the input; when two entries derive the same outer key, the
later entry resets the category and the earlier leaves are dropped, and
duplicate inner buckets within one entry merge to the last count. -/
theorem format_flatten_pairs_of_distinct (ws : List WfSevEntry) (rws : List WfResEntry)
    (hsd : (ws.map sevCategoryKey).Nodup)
    (hrd : (rws.map (fun e => strLower e.bucket)).Nodup) :
    (format_event_severity (ws.map WfSevEntry.toEntry) = .ok (sevEval ws) ∧
      ∀ a b, ((a, b) ∈ dictPairs (sevEval ws) ↔ (a, b) ∈ sevLeafPairs ws)) ∧
    (format_impacted_resource (rws.map WfResEntry.toEntry) = .ok (resEval rws) ∧
      ∀ a b, ((a, b) ∈ dictPairs (resEval rws) ↔ (a, b) ∈ resLeafPairs rws)) := by
  have hsev : sevEval ws = ws.map (fun e => (sevCategoryKey e, sevInnerEval e)) := by
    unfold sevEval
    rw [foldl_dinsert_append sevCategoryKey sevInnerEval ws [] (by simp) hsd]
    simp
  have hres : resEval rws = rws.map (fun e => (strLower e.bucket, resInnerEval e)) := by
    unfold resEval
    rw [foldl_dinsert_append (fun e => strLower e.bucket) resInnerEval rws [] (by simp) hrd]
    simp
  refine ⟨⟨format_event_severity_wf ws, ?_⟩, ⟨format_impacted_resource_wf rws, ?_⟩⟩
  · intro a b
    rw [hsev, mem_dictPairs]
    simp only [List.mem_map, sevLeafPairs, List.mem_flatMap, Prod.mk.injEq]
    constructor
    · rintro ⟨kv, ⟨e, he, rfl⟩, ha, hb⟩
      obtain ⟨i, hi, hib⟩ := (mem_dkeys_sevInnerEval e b).mp hb
      exact ⟨e, he, i, hi, ha, hib⟩
    · rintro ⟨e, he, i, hi, ha, hb⟩
      refine ⟨(sevCategoryKey e, sevInnerEval e), ⟨e, he, rfl⟩, ha, ?_⟩
      exact (mem_dkeys_sevInnerEval e b).mpr ⟨i, hi, hb⟩
  · intro a b
    rw [hres, mem_dictPairs]
    simp only [List.mem_map, resLeafPairs, List.mem_flatMap, Prod.mk.injEq]
    constructor
    · rintro ⟨kv, ⟨e, he, rfl⟩, ha, hb⟩
      obtain ⟨m, hm, i, hi, hib⟩ := (mem_dkeys_resInnerEval e b).mp hb
      exact ⟨e, he, m, hm, i, hi, ha, hib⟩
    · rintro ⟨e, he, m, hm, i, hi, ha, hb⟩
      refine ⟨(strLower e.bucket, resInnerEval e), ⟨e, he, rfl⟩, ha, ?_⟩
      exact (mem_dkeys_resInnerEval e b).mpr ⟨m, hm, i, hi, hb⟩

/-- C1 (witness): the amended theorem applied to inputs with distinct derived
outer keys. -/
theorem format_flatten_pairs_of_distinct_witness :
    ([WfSevEntry.mk "A_HIGH" [WfSevItem.mk "E1" (some 1)],
      WfSevEntry.mk "B_LOW" [WfSevItem.mk "E2" (some 2)]].map sevCategoryKey).Nodup ∧
    ([WfResEntry.mk "CPU" [WfResMid.mk [WfResItem.mk "EP1" (some 3)]]].map
      (fun e => strLower e.bucket)).Nodup ∧
    ((format_event_severity
        ([WfSevEntry.mk "A_HIGH" [WfSevItem.mk "E1" (some 1)],
          WfSevEntry.mk "B_LOW" [WfSevItem.mk "E2" (some 2)]].map WfSevEntry.toEntry) =
        .ok (sevEval [WfSevEntry.mk "A_HIGH" [WfSevItem.mk "E1" (some 1)],
          WfSevEntry.mk "B_LOW" [WfSevItem.mk "E2" (some 2)]]) ∧
      ∀ a b, ((a, b) ∈ dictPairs (sevEval
          [WfSevEntry.mk "A_HIGH" [WfSevItem.mk "E1" (some 1)],
           WfSevEntry.mk "B_LOW" [WfSevItem.mk "E2" (some 2)]]) ↔
        (a, b) ∈ sevLeafPairs
          [WfSevEntry.mk "A_HIGH" [WfSevItem.mk "E1" (some 1)],
           WfSevEntry.mk "B_LOW" [WfSevItem.mk "E2" (some 2)]])) ∧
    (format_impacted_resource
        ([WfResEntry.mk "CPU" [WfResMid.mk [WfResItem.mk "EP1" (some 3)]]].map
          WfResEntry.toEntry) =
        .ok (resEval [WfResEntry.mk "CPU" [WfResMid.mk [WfResItem.mk "EP1" (some 3)]]]) ∧
      ∀ a b, ((a, b) ∈ dictPairs (resEval
          [WfResEntry.mk "CPU" [WfResMid.mk [WfResItem.mk "EP1" (some 3)]]]) ↔
        (a, b) ∈ resLeafPairs
          [WfResEntry.mk "CPU" [WfResMid.mk [WfResItem.mk "EP1" (some 3)]]]))) :=
  ⟨by decide, by decide,
    format_flatten_pairs_of_distinct _ _ (by decide) (by decide)⟩

/-- Error propagation through a monadic fold: when some element's step fails
on every accumulator, the whole fold fails. -/
theorem foldlM_error_of_bad {α σ : Type} (f : σ → α → Except String σ) (x : α) :
    ∀ xs : List α, x ∈ xs → (∀ acc, ∃ e, f acc x = .error e) →
      ∀ acc, ∃ e, xs.foldlM f acc = .error e := by
  intro xs
  induction xs with
  | nil =>
    intro hx
    cases hx
  | cons y rest ih =>
    intro hx hbad acc
    rcases List.mem_cons.mp hx with rfl | hx'
    · obtain ⟨e, he⟩ := hbad acc
      exact ⟨e, by simp [List.foldlM_cons, he]⟩
    · cases hf : f acc y with
      | error e => exact ⟨e, by simp [List.foldlM_cons, hf]⟩
      | ok acc' =>
        obtain ⟨e, he⟩ := ih hx' hbad acc'
        exact ⟨e, by simp [List.foldlM_cons, hf, he]⟩

/-- C7 (counterexample): an entry with a missing field is not logged and
skipped: the whole normalization aborts, so the later well-formed entry of the
first list is never processed and no partial mapping is returned. -/
theorem normalizer_missing_field_not_skipped :
    format_messages [PyMessage.mk (some "m1") none,
        PyMessage.mk (some "m2") (some "INFO")] =
      .error "AttributeError: NoneType has no attribute lower" ∧
    format_event_severity [SevEntry.mk none (some [SevOutput.mk (some "E1") (some 1)])] =
      .error "AttributeError: NoneType has no attribute lower" :=
  ⟨rfl, rfl⟩

/-- C7 (amended): in each of the three normalizers, an entry missing an
expected field is not skipped: the whole call aborts with an error, so none of
the remaining entries is processed and no partial result is returned. -/
theorem normalizers_missing_field_aborts (messages : List PyMessage)
    (es : List SevEntry) (rs : List ResEntry)
    (hm : ∃ m ∈ messages, m.severity = none)
    (he : ∃ en ∈ es, en.bucket = none ∨ en.output = none)
    (hr : ∃ en ∈ rs, en.bucket = none ∨ en.output = none) :
    (∃ e, format_messages messages = .error e) ∧
    (∃ e, format_event_severity es = .error e) ∧
    (∃ e, format_impacted_resource rs = .error e) := by
  refine ⟨?_, ?_, ?_⟩
  · obtain ⟨m, hmem, hnone⟩ := hm
    refine foldlM_error_of_bad _ m messages hmem (fun acc => ?_) []
    exact ⟨"AttributeError: NoneType has no attribute lower", by simp [hnone]⟩
  · obtain ⟨en, hmem, hnone⟩ := he
    refine foldlM_error_of_bad _ en es hmem (fun acc => ?_) []
    obtain ⟨b, o⟩ := en
    rcases hnone with hb | ho
    · cases hb
      exact ⟨"AttributeError: NoneType has no attribute lower", by simp⟩
    · cases ho
      cases b with
      | none => exact ⟨"AttributeError: NoneType has no attribute lower", by simp⟩
      | some s => exact ⟨"TypeError: NoneType is not iterable", by simp⟩
  · obtain ⟨en, hmem, hnone⟩ := hr
    refine foldlM_error_of_bad _ en rs hmem (fun acc => ?_) []
    obtain ⟨b, o⟩ := en
    rcases hnone with hb | ho
    · cases hb
      exact ⟨"AttributeError: NoneType has no attribute lower", by simp⟩
    · cases ho
      cases b with
      | none => exact ⟨"AttributeError: NoneType has no attribute lower", by simp⟩
      | some s => exact ⟨"TypeError: NoneType is not iterable", by simp⟩

/-- C7 (witness): the amended theorem applied to one-element malformed lists. -/
theorem normalizers_missing_field_aborts_witness :
    (∃ m ∈ [PyMessage.mk (some "x") none], m.severity = none) ∧
    (∃ en ∈ [SevEntry.mk none (some [])], en.bucket = none ∨ en.output = none) ∧
    (∃ en ∈ [ResEntry.mk (some "cpu") none], en.bucket = none ∨ en.output = none) ∧
    ((∃ e, format_messages [PyMessage.mk (some "x") none] = .error e) ∧
      (∃ e, format_event_severity [SevEntry.mk none (some [])] = .error e) ∧
      (∃ e, format_impacted_resource [ResEntry.mk (some "cpu") none] = .error e)) :=
  ⟨by decide, by decide, by decide,
    normalizers_missing_field_aborts _ _ _ (by decide) (by decide) (by decide)⟩

/-! Reconciler lemmas. -/

theorem finishPresent_trace (t : List Request) (prev ex : List (String × JVal))
    (f : String) : (finishPresent t prev ex f).trace = t := by
  unfold finishPresent
  cases h : rsplitDot (basename f) with
  | none => rfl
  | some pr =>
    obtain ⟨fn, ext⟩ := pr
    rfl

/-- C5: with state `absent` and no matching requirement located, the
invocation is a no-op: the only request issued is the requirement listing (in
particular no DELETE), the outcome is normal (no error), and the run is
reported unchanged. -/
theorem absent_no_match_noop (p : ModuleParams) (env : MainEnv) (check_mode : Bool)
    (name : String) (hstate : p.state = "absent") (hname : p.name = some name) :
    mainRun p check_mode none env =
      { trace := [Request.get (requirements_path p.insights_group)], outcome := .ok,
        previous := [], existing := [], changed := false } := by
  have hreq : requiredIfOk p = true := by
    simp [requiredIfOk, hstate, hname]
  simp [mainRun, hreq, hstate, truthyOpt, report_changed, pyValEq, normJVal,
    normFields, sortFields, beqJVal, beqJFields]

/-- C5 (witness): the no-op theorem at a concrete parameter set. -/
theorem absent_no_match_noop_witness :
    (ModuleParams.mk "ig" (some "req") none none none "absent" none false).state =
        "absent" ∧
      (ModuleParams.mk "ig" (some "req") none none none "absent" none false).name =
        some "req" ∧
      mainRun (ModuleParams.mk "ig" (some "req") none none none "absent" none false)
          false none (MainEnv.mk (fun _ => none) []) =
        { trace := [Request.get (requirements_path "ig")], outcome := .ok,
          previous := [], existing := [], changed := false } :=
  ⟨rfl, rfl,
    absent_no_match_noop
      (ModuleParams.mk "ig" (some "req") none none none "absent" none false)
      (MainEnv.mk (fun _ => none) []) false "req" rfl rfl⟩

/-- C2: with state `present`, a located requirement (non-empty UUID) and a
desired file whose basename differs from the existing record's attached file
name joined with a dot and its extension, the invocation fails fatally via
`fail_json` right after the requirement listing: the trace holds only that
read, so no POST or PATCH (nor any other mutating request) is ever issued. -/
theorem present_file_mismatch_fails_before_mutation (p : ModuleParams)
    (check_mode : Bool) (u : String) (rec : List (String × JVal)) (env : MainEnv)
    (name : String) (enabled : Bool) (sites : List String) (file : String)
    (hstate : p.state = "present") (hname : p.name = some name)
    (hen : p.enabled = some enabled) (hsites : p.sites = some sites)
    (hfile : p.file = some file) (hu : u ≠ "")
    (hmismatch : pyStrOpt (dget rec "uploadedFileName") ++ "." ++
      pyStrOpt (dget rec "uploadedFileExtension") ≠ basename file) :
    mainRun p check_mode (some (u, rec)) env =
      { trace := [Request.get (requirements_path p.insights_group)],
        outcome := .failJson ("File provided " ++ basename file ++
          " is not matching file " ++
          (pyStrOpt (dget rec "uploadedFileName") ++ "." ++
            pyStrOpt (dget rec "uploadedFileExtension")) ++
          " of existing requirement"),
        previous := [], existing := rec, changed := false } ∧
    ∀ r ∈ (mainRun p check_mode (some (u, rec)) env).trace, r.isMutating = false := by
  have hreq : requiredIfOk p = true := by
    simp [requiredIfOk, hstate, hname, hen, hsites, hfile]
  have hbu : (u == "") = false := beq_eq_false_iff_ne.mpr hu
  have hbf : (pyStrOpt (dget rec "uploadedFileName") ++ "." ++
      pyStrOpt (dget rec "uploadedFileExtension") == basename file) = false :=
    beq_eq_false_iff_ne.mpr hmismatch
  have hmain : mainRun p check_mode (some (u, rec)) env =
      runPresent p check_mode (some u) rec env
        [Request.get (requirements_path p.insights_group)] name enabled sites file := by
    simp [mainRun, hreq, hstate, hname, hen, hsites, hfile]
  have hrun : runPresent p check_mode (some u) rec env
      [Request.get (requirements_path p.insights_group)] name enabled sites file =
      { trace := [Request.get (requirements_path p.insights_group)],
        outcome := .failJson ("File provided " ++ basename file ++
          " is not matching file " ++
          (pyStrOpt (dget rec "uploadedFileName") ++ "." ++
            pyStrOpt (dget rec "uploadedFileExtension")) ++
          " of existing requirement"),
        previous := [], existing := rec, changed := false } := by
    simp [runPresent, truthyOpt, hbu, hbf]
  rw [hmain, hrun]
  refine ⟨rfl, ?_⟩
  intro r hr
  simp only [List.mem_singleton] at hr
  subst hr
  rfl

/-- C2 (witness): the mismatch theorem at a concrete invocation (existing file
`a.json`, desired file `b.json`). -/
theorem present_file_mismatch_witness :
    (ModuleParams.mk "ig" (some "req") none (some true) (some ["s1"]) "present"
        (some "b.json") false).state = "present" ∧
      ("u1" : String) ≠ "" ∧
      pyStrOpt (dget [("uploadedFileName", JVal.str "a"),
          ("uploadedFileExtension", JVal.str "json")] "uploadedFileName") ++ "." ++
        pyStrOpt (dget [("uploadedFileName", JVal.str "a"),
          ("uploadedFileExtension", JVal.str "json")] "uploadedFileExtension") ≠
        basename "b.json" ∧
      mainRun (ModuleParams.mk "ig" (some "req") none (some true) (some ["s1"])
          "present" (some "b.json") false) false
        (some ("u1", [("uploadedFileName", JVal.str "a"),
          ("uploadedFileExtension", JVal.str "json")]))
        (MainEnv.mk (fun _ => none) []) =
      { trace := [Request.get (requirements_path "ig")],
        outcome := .failJson ("File provided " ++ basename "b.json" ++
          " is not matching file " ++
          (pyStrOpt (dget [("uploadedFileName", JVal.str "a"),
            ("uploadedFileExtension", JVal.str "json")] "uploadedFileName") ++ "." ++
           pyStrOpt (dget [("uploadedFileName", JVal.str "a"),
            ("uploadedFileExtension", JVal.str "json")] "uploadedFileExtension")) ++
          " of existing requirement"),
        previous := [],
        existing := [("uploadedFileName", JVal.str "a"),
          ("uploadedFileExtension", JVal.str "json")], changed := false } := by
  refine ⟨rfl, by decide, by decide, ?_⟩
  exact (present_file_mismatch_fails_before_mutation
    (ModuleParams.mk "ig" (some "req") none (some true) (some ["s1"]) "present"
      (some "b.json") false) false "u1"
    [("uploadedFileName", JVal.str "a"), ("uploadedFileExtension", JVal.str "json")]
    (MainEnv.mk (fun _ => none) []) "req" true ["s1"] "b.json"
    rfl rfl rfl rfl rfl (by decide) (by decide)).1

theorem runPresent_check_trace (p : ModuleParams) (uuid : Option String)
    (ex : List (String × JVal)) (env : MainEnv) (t0 : List Request)
    (name : String) (enabled : Bool) (sites : List String) (file : String) :
    (runPresent p true uuid ex env t0 name enabled sites file).trace = t0 ∨
    (runPresent p true uuid ex env t0 name enabled sites file).trace =
      t0 ++ sites.map (fun _ => Request.get config_ig_path) := by
  unfold runPresent
  by_cases hc : (truthyOpt uuid &&
      !((pyStrOpt (dget ex "uploadedFileName") ++ "." ++
        pyStrOpt (dget ex "uploadedFileExtension")) == basename file)) = true
  · left
    simp [hc]
  · right
    simp only [Bool.not_eq_true] at hc
    simp [hc, finishPresent_trace]

theorem mainRun_check_mode_trace (p : ModuleParams)
    (located : Option (String × List (String × JVal))) (env : MainEnv) :
    ∀ r ∈ (mainRun p true located env).trace, r.isMutating = false := by
  intro r hr
  by_cases hreq : requiredIfOk p = true
  · simp only [mainRun, hreq, Bool.not_true] at hr
    by_cases habs : (p.state == "absent" &&
        truthyOpt (located.map Prod.fst)) = true
    · simp only [habs] at hr
      cases located with
      | none =>
        simp at hr
        subst hr
        rfl
      | some pr =>
        obtain ⟨u, rec⟩ := pr
        simp at hr
        subst hr
        rfl
    · simp only [Bool.not_eq_true] at habs
      simp only [habs] at hr
      by_cases hpres : (p.state == "present") = true
      · simp only [hpres] at hr
        cases hname : p.name with
        | none =>
          simp [hname] at hr
          subst hr
          rfl
        | some name =>
        cases hen : p.enabled with
        | none =>
          simp [hname, hen] at hr
          subst hr
          rfl
        | some enabled =>
        cases hsites : p.sites with
        | none =>
          simp [hname, hen, hsites] at hr
          subst hr
          rfl
        | some sites =>
        cases hfile : p.file with
        | none =>
          simp [hname, hen, hsites, hfile] at hr
          subst hr
          rfl
        | some file =>
          simp only [hname, hen, hsites, hfile, Bool.false_eq_true, if_false,
            if_true] at hr
          rcases runPresent_check_trace p (located.map Prod.fst)
            ((located.map Prod.snd).getD []) env
            [Request.get (requirements_path p.insights_group)]
            name enabled sites file with ht | ht
          · rw [ht] at hr
            simp only [List.mem_singleton] at hr
            subst hr
            rfl
          · rw [ht] at hr
            simp only [List.mem_append, List.mem_singleton, List.mem_map] at hr
            rcases hr with hr | ⟨x, hx, hr⟩
            · subst hr
              rfl
            · subst hr
              rfl
      · simp only [Bool.not_eq_true] at hpres
        simp only [hpres] at hr
        simp at hr
        subst hr
        rfl
  · have hreq' : requiredIfOk p = false := by
      cases h : requiredIfOk p
      · rfl
      · exact absurd h hreq
    simp [mainRun, hreq'] at hr

/-- C4: an invocation in check (dry-run) mode never issues a mutating request
(POST, PATCH or DELETE), in any state; with state `present` (valid parameters,
matching file on a located requirement, dotted file basename) the would-be
payload is still computed and reported as the existing state with the file
name metadata re-attached, and with state `absent` the reported existing state
is empty; both end with a normal outcome. -/
theorem check_mode_reports_without_mutation (p : ModuleParams)
    (located : Option (String × List (String × JVal))) (env : MainEnv)
    (hloc : ∀ u rec, located = some (u, rec) → u ≠ "") :
    (∀ r ∈ (mainRun p true located env).trace, r.isMutating = false) ∧
    (∀ name enabled sites file fn ext,
      p.state = "present" → p.name = some name → p.enabled = some enabled →
      p.sites = some sites → p.file = some file →
      (truthyOpt (located.map Prod.fst) = true →
        pyStrOpt (dget ((located.map Prod.snd).getD []) "uploadedFileName") ++ "." ++
          pyStrOpt (dget ((located.map Prod.snd).getD []) "uploadedFileExtension") =
          basename file) →
      rsplitDot (basename file) = some (fn, ext) →
      (mainRun p true located env).outcome = .ok ∧
      (mainRun p true located env).existing =
        dinsert "uploadedFileName" (.str fn) (dinsert "uploadedFileExtension" (.str ext)
          (updateDescription (mkPayload name enabled sites env p.selector_based_on_tags)
            p.description ((located.map Prod.snd).getD [])))) ∧
    (p.state = "absent" → (∃ nm, p.name = some nm) →
      (mainRun p true located env).outcome = .ok ∧
      (mainRun p true located env).existing = []) := by
  refine ⟨mainRun_check_mode_trace p located env, ?_, ?_⟩
  · intro name enabled sites file fn ext hstate hname hen hsites hfile hfok hdot
    have hreq : requiredIfOk p = true := by
      simp [requiredIfOk, hstate, hname, hen, hsites, hfile]
    have hmain : mainRun p true located env =
        runPresent p true (located.map Prod.fst) ((located.map Prod.snd).getD []) env
          [Request.get (requirements_path p.insights_group)] name enabled sites file := by
      simp [mainRun, hreq, hstate, hname, hen, hsites, hfile]
    rw [hmain]
    have hcond : (truthyOpt (located.map Prod.fst) &&
        !((pyStrOpt (dget ((located.map Prod.snd).getD []) "uploadedFileName") ++ "." ++
          pyStrOpt (dget ((located.map Prod.snd).getD []) "uploadedFileExtension")) ==
          basename file)) = false := by
      cases ht : truthyOpt (located.map Prod.fst)
      · rfl
      · have heq := hfok ht
        simp [heq]
    unfold runPresent
    dsimp only
    rw [hcond]
    simp only [Bool.false_eq_true, if_false, Bool.not_true, Bool.false_and]
    unfold finishPresent
    rw [hdot]
    dsimp only
    exact ⟨rfl, rfl⟩
  · intro hstate hname
    obtain ⟨nm, hname⟩ := hname
    have hreq : requiredIfOk p = true := by
      simp [requiredIfOk, hstate, hname]
    cases located with
    | none =>
      simp [mainRun, hreq, hstate, truthyOpt]
    | some pr =>
      obtain ⟨u, rec⟩ := pr
      have hu : u ≠ "" := hloc u rec rfl
      have hbu : (u == "") = false := beq_eq_false_iff_ne.mpr hu
      simp [mainRun, hreq, hstate, truthyOpt, hbu]

/-- C4 (witness): the check-mode theorem at a concrete present-state
invocation with no located requirement. -/
theorem check_mode_reports_without_mutation_witness :
    (∀ u rec, (none : Option (String × List (String × JVal))) = some (u, rec) →
      u ≠ "") ∧
    ((∀ r ∈ (mainRun (ModuleParams.mk "ig" (some "req") none (some true)
        (some ["s1"]) "present" (some "t.json") false) true none
        (MainEnv.mk (fun _ => some "su") [])).trace, r.isMutating = false) ∧
    (∀ name enabled sites file fn ext,
      (ModuleParams.mk "ig" (some "req") none (some true) (some ["s1"]) "present"
        (some "t.json") false).state = "present" →
      (ModuleParams.mk "ig" (some "req") none (some true) (some ["s1"]) "present"
        (some "t.json") false).name = some name →
      (ModuleParams.mk "ig" (some "req") none (some true) (some ["s1"]) "present"
        (some "t.json") false).enabled = some enabled →
      (ModuleParams.mk "ig" (some "req") none (some true) (some ["s1"]) "present"
        (some "t.json") false).sites = some sites →
      (ModuleParams.mk "ig" (some "req") none (some true) (some ["s1"]) "present"
        (some "t.json") false).file = some file →
      (truthyOpt ((none : Option (String × List (String × JVal))).map Prod.fst) = true →
        pyStrOpt (dget (((none : Option (String × List (String × JVal))).map
            Prod.snd).getD []) "uploadedFileName") ++ "." ++
          pyStrOpt (dget (((none : Option (String × List (String × JVal))).map
            Prod.snd).getD []) "uploadedFileExtension") = basename file) →
      rsplitDot (basename file) = some (fn, ext) →
      (mainRun (ModuleParams.mk "ig" (some "req") none (some true) (some ["s1"])
          "present" (some "t.json") false) true none
          (MainEnv.mk (fun _ => some "su") [])).outcome = .ok ∧
      (mainRun (ModuleParams.mk "ig" (some "req") none (some true) (some ["s1"])
          "present" (some "t.json") false) true none
          (MainEnv.mk (fun _ => some "su") [])).existing =
        dinsert "uploadedFileName" (.str fn) (dinsert "uploadedFileExtension" (.str ext)
          (updateDescription (mkPayload name enabled sites
              (MainEnv.mk (fun _ => some "su") [])
              (ModuleParams.mk "ig" (some "req") none (some true) (some ["s1"])
                "present" (some "t.json") false).selector_based_on_tags)
            (ModuleParams.mk "ig" (some "req") none (some true) (some ["s1"])
              "present" (some "t.json") false).description
            (((none : Option (String × List (String × JVal))).map Prod.snd).getD [])))) ∧
    ((ModuleParams.mk "ig" (some "req") none (some true) (some ["s1"]) "present"
        (some "t.json") false).state = "absent" →
      (∃ nm, (ModuleParams.mk "ig" (some "req") none (some true) (some ["s1"])
        "present" (some "t.json") false).name = some nm) →
      (mainRun (ModuleParams.mk "ig" (some "req") none (some true) (some ["s1"])
          "present" (some "t.json") false) true none
          (MainEnv.mk (fun _ => some "su") [])).outcome = .ok ∧
      (mainRun (ModuleParams.mk "ig" (some "req") none (some true) (some ["s1"])
          "present" (some "t.json") false) true none
          (MainEnv.mk (fun _ => some "su") [])).existing = [])) :=
  ⟨fun _ _ h => Option.noConfusion h,
    check_mode_reports_without_mutation
      (ModuleParams.mk "ig" (some "req") none (some true) (some ["s1"]) "present"
        (some "t.json") false) none (MainEnv.mk (fun _ => some "su") [])
      (fun _ _ h => Option.noConfusion h)⟩

/-- C10 (counterexample): a supplied empty-string description is not used
verbatim: Python truthiness sends it to the `elif`, so with a truthy existing
description the payload gets the single-space string rather than the supplied
empty string. -/
theorem description_empty_string_not_verbatim :
    updateDescription [] (some "") [("description", JVal.str "x")] =
      [("description", JVal.str " ")] ∧
    JVal.str " " ≠ JVal.str "" := by
  refine ⟨rfl, ?_⟩
  intro h
  simp at h

/-- C10 (amended): a supplied non-empty description is appended to the payload
verbatim; when the supplied description is missing or empty and the existing
record's description is truthy, the single-space string is set (clearing it
server-side); when the supplied description is missing or empty and the
existing description is missing or falsy, the payload gets no description key
at all. -/
theorem updateDescription_spec (payload : List (String × JVal))
    (description : Option String) (existing : List (String × JVal))
    (hnd : "description" ∉ dkeys payload) :
    (∀ s, description = some s → s ≠ "" →
      updateDescription payload description existing =
        payload ++ [("description", .str s)]) ∧
    ((description = none ∨ description = some "") →
      pyTruthy ((dget existing "description").getD .nul) = true →
      updateDescription payload description existing =
        payload ++ [("description", .str " ")]) ∧
    ((description = none ∨ description = some "") →
      pyTruthy ((dget existing "description").getD .nul) = false →
      updateDescription payload description existing = payload) := by
  refine ⟨?_, ?_, ?_⟩
  · rintro s rfl hs
    have hbs : (s == "") = false := beq_eq_false_iff_ne.mpr hs
    simp [updateDescription, truthyOptStr, hbs, dinsert_not_mem _ _ _ hnd]
  · rintro (rfl | rfl) hex
    · simp [updateDescription, truthyOptStr, hex, dinsert_not_mem _ _ _ hnd]
    · simp [updateDescription, truthyOptStr, hex, dinsert_not_mem _ _ _ hnd]
  · rintro (rfl | rfl) hex
    · simp [updateDescription, truthyOptStr, hex]
    · simp [updateDescription, truthyOptStr, hex]

/-- C10 (witness): the description theorem at a concrete payload, supplied
description and existing record. -/
theorem updateDescription_spec_witness :
    ("description" ∉ dkeys [("name", JVal.str "req")]) ∧
    ((∀ s, (some "hello" : Option String) = some s → s ≠ "" →
      updateDescription [("name", JVal.str "req")] (some "hello")
          [("description", JVal.str "old")] =
        [("name", JVal.str "req")] ++ [("description", .str s)]) ∧
    (((some "hello" : Option String) = none ∨ (some "hello" : Option String) = some "") →
      pyTruthy ((dget [("description", JVal.str "old")] "description").getD .nul) = true →
      updateDescription [("name", JVal.str "req")] (some "hello")
          [("description", JVal.str "old")] =
        [("name", JVal.str "req")] ++ [("description", .str " ")]) ∧
    (((some "hello" : Option String) = none ∨ (some "hello" : Option String) = some "") →
      pyTruthy ((dget [("description", JVal.str "old")] "description").getD .nul) = false →
      updateDescription [("name", JVal.str "req")] (some "hello")
          [("description", JVal.str "old")] = [("name", JVal.str "req")])) :=
  ⟨by decide,
    updateDescription_spec [("name", JVal.str "req")] (some "hello")
      [("description", JVal.str "old")] (by decide)⟩

/-- C3 (counterexample): resolving a pre-change validation result with a
missing name is rejected by `fail_json`, but only after the pre-change job
listing query has already been issued: the trace of queried paths before the
failure is non-empty, falsifying the claim that no query request of any kind
is made prior to the failure. -/
theorem query_pcv_queries_before_failure :
    (query_pcv (NDClient.mk (fun _ => JVal.obj [("value",
        JVal.obj [("data", JVal.arr [])])])) "ig" none none).1 =
      ["config/insightsGroup/ig/prechangeAnalysis?$sort=-analysisSubmissionTime"] ∧
    (query_pcv (NDClient.mk (fun _ => JVal.obj [("value",
        JVal.obj [("data", JVal.arr [])])])) "ig" none none).2 =
      .failJson "site name and prechange validation job name are required" ∧
    (query_pcv (NDClient.mk (fun _ => JVal.obj [("value",
        JVal.obj [("data", JVal.arr [])])])) "ig" none none).1 ≠ [] := by
  refine ⟨rfl, rfl, ?_⟩
  intro h
  have h1 : (query_pcv (NDClient.mk (fun _ => JVal.obj [("value",
      JVal.obj [("data", JVal.arr [])])])) "ig" none none).1 =
      ["config/insightsGroup/ig/prechangeAnalysis?$sort=-analysisSubmissionTime"] := rfl
  rw [h1] at h
  exact List.noConfusion h

/-- C3 (amended): when the site name or the pre-change job name is missing and
the listing response is well-formed, `query_pcv` is rejected fatally by
`fail_json` before the site-id lookup or any per-job result query is issued —
but after the one pre-change job listing query, which is always issued first. -/
theorem query_pcv_missing_name_fails_after_listing (env : NDClient) (ig : String)
    (site_name pcv_name : Option String)
    (hmiss : site_name = none ∨ pcv_name = none)
    (hwf : ∃ d, (query_pcvs env ig).2 = .ok d) :
    query_pcv env ig site_name pcv_name =
      ([pcvs_listing_path ig],
        .failJson "site name and prechange validation job name are required") := by
  obtain ⟨d, hd⟩ := hwf
  rcases hmiss with rfl | rfl
  · cases pcv_name with
    | none =>
      simp only [query_pcv]
      rw [hd]
      rfl
    | some pname =>
      simp only [query_pcv]
      rw [hd]
      rfl
  · cases site_name with
    | none =>
      simp only [query_pcv]
      rw [hd]
      rfl
    | some sname =>
      simp only [query_pcv]
      rw [hd]
      rfl

/-- C3 (witness): the amended theorem at a concrete well-formed environment
with a missing site name. -/
theorem query_pcv_missing_name_fails_after_listing_witness :
    ((none : Option String) = none ∨ (some "job" : Option String) = none) ∧
    (∃ d, (query_pcvs (NDClient.mk (fun _ => JVal.obj [("value",
        JVal.obj [("data", JVal.arr [])])])) "ig").2 = .ok d) ∧
    query_pcv (NDClient.mk (fun _ => JVal.obj [("value",
        JVal.obj [("data", JVal.arr [])])])) "ig" none (some "job") =
      ([pcvs_listing_path "ig"],
        .failJson "site name and prechange validation job name are required") :=
  ⟨Or.inl rfl, ⟨.arr [], rfl⟩,
    query_pcv_missing_name_fails_after_listing
      (NDClient.mk (fun _ => JVal.obj [("value", JVal.obj [("data", JVal.arr [])])]))
      "ig" none (some "job") (Or.inl rfl) ⟨.arr [], rfl⟩⟩

/-- C9 (witness): the scan theorem applied to a two-site list in which the
second site matches. -/
theorem get_site_id_scan_spec_witness :
    (∀ s ∈ [JVal.obj [("name", .str "other"), ("uuid", .str "u0")],
            JVal.obj [("name", .str "siteA"), ("uuid", .str "u1")]],
      (∃ v, subscript s "name" = .ok v) ∧ ∃ u, subscript s "uuid" = .ok u) ∧
    (((∃ s ∈ [JVal.obj [("name", .str "other"), ("uuid", .str "u0")],
              JVal.obj [("name", .str "siteA"), ("uuid", .str "u1")]],
        subscript s "name" = .ok (.str "siteA")) →
      ∃ s ∈ [JVal.obj [("name", .str "other"), ("uuid", .str "u0")],
             JVal.obj [("name", .str "siteA"), ("uuid", .str "u1")]],
        subscript s "name" = .ok (.str "siteA") ∧
          ∃ u, subscript s "uuid" = .ok u ∧
            get_site_id_scan
              [JVal.obj [("name", .str "other"), ("uuid", .str "u0")],
               JVal.obj [("name", .str "siteA"), ("uuid", .str "u1")]] "siteA" =
              .ok (some u)) ∧
    ((∀ s ∈ [JVal.obj [("name", .str "other"), ("uuid", .str "u0")],
             JVal.obj [("name", .str "siteA"), ("uuid", .str "u1")]],
        subscript s "name" ≠ .ok (.str "siteA")) →
      get_site_id_scan
        [JVal.obj [("name", .str "other"), ("uuid", .str "u0")],
         JVal.obj [("name", .str "siteA"), ("uuid", .str "u1")]] "siteA" =
        .ok none)) := by
  have hwf : ∀ s ∈ [JVal.obj [("name", .str "other"), ("uuid", .str "u0")],
      JVal.obj [("name", .str "siteA"), ("uuid", .str "u1")]],
      (∃ v, subscript s "name" = .ok v) ∧ ∃ u, subscript s "uuid" = .ok u := by
    intro s hs
    rcases List.mem_cons.mp hs with rfl | hs
    · exact ⟨⟨.str "other", rfl⟩, ⟨.str "u0", rfl⟩⟩
    rcases List.mem_cons.mp hs with rfl | hs
    · exact ⟨⟨.str "siteA", rfl⟩, ⟨.str "u1", rfl⟩⟩
    · cases hs
  exact ⟨hwf, get_site_id_scan_spec _ "siteA" hwf⟩

end AnsibleND
